import Mathlib

/-
Verification of the attractor-app issues server core
(src/issues_server/src/issues_server): the git-backed document store
(storage.py), the Amplifier subprocess session manager (amplifier.py) and
the WebSocket broadcaster (ws.py), shallowly embedded in Lean.

Python strings are modelled as Lean String / List Char; Python int as Int;
datetime values as opaque ISO strings or Int timestamps where ordering
matters; the filesystem / git / subprocess side effects as explicit state
or as Except-valued environment fields.
-/

-- ===========================================================================
-- Python string primitives (modelled from the CPython semantics the code
-- relies on: str.strip, str.split, str.splitlines, slicing)
-- ===========================================================================

/-- Characters stripped by Python str.strip() with no argument. -/
def pyIsSpace (c : Char) : Bool :=
  c = ' ' || c = '\t' || c = '\n' || c = '\r' || c = '\x0b' || c = '\x0c'

/-- Python str.strip(): remove leading and trailing whitespace. -/
def pyStrip (cs : List Char) : List Char :=
  ((cs.dropWhile pyIsSpace).reverse.dropWhile pyIsSpace).reverse

/-- Python str.split(sep) for a one-character separator: every occurrence of
the separator ends a field, so the result has (number of separators + 1)
fields and splitting the empty string gives one empty field. -/
def pySplitChar (sep : Char) : List Char → List (List Char)
  | [] => [[]]
  | c :: cs =>
    let r := pySplitChar sep cs
    if c = sep then [] :: r
    else
      match r with
      | [] => [[c]]
      | g :: gs => (c :: g) :: gs

/-- Line-break characters recognised by Python str.splitlines(). -/
def pyIsLineBreak (c : Char) : Bool :=
  c = '\n' || c = '\r' || c = '\x0b' || c = '\x0c' ||
  c = '\x1c' || c = '\x1d' || c = '\x1e' || c = '\x85' ||
  c = '\u2028' || c = '\u2029'

/-- Python str.splitlines() worker: each line-break character ends a line
(with a CR LF pair counting as one break); a final line without a trailing
break is kept, a trailing break does not open an empty last line. -/
def pySplitlinesGo (acc : List Char) : List Char → List (List Char)
  | [] => if acc.isEmpty then [] else [acc.reverse]
  | '\r' :: '\n' :: rest => acc.reverse :: pySplitlinesGo [] rest
  | c :: rest =>
    if pyIsLineBreak c then acc.reverse :: pySplitlinesGo [] rest
    else pySplitlinesGo (c :: acc) rest

/-- Python str.splitlines(). -/
def pySplitlines (s : String) : List (List Char) :=
  pySplitlinesGo [] s.toList

/-- Join a list of lines with a newline, as "\n".join(lines) does. -/
def joinNewline : List (List Char) → List Char
  | [] => []
  | [l] => l
  | l :: ls => l ++ '\n' :: joinNewline ls

/-- Python list slicing l[a:b] with step 1: negative bounds count from the
end, then both bounds are clamped into [0, len(l)]. -/
def pySlice {α : Type} (l : List α) (a b : Int) : List α :=
  let n : Int := l.length
  let lo := if a < 0 then max (n + a) 0 else min a n
  let hi := if b < 0 then max (n + b) 0 else min b n
  (l.take hi.toNat).drop lo.toNat

-- ===========================================================================
-- JSON values and json.loads (modelled from CPython json, strict mode,
-- as used by amplifier.py and ws.py)
-- ===========================================================================

/-- A parsed JSON value.  Numbers keep their source lexeme (no claim under
verification inspects a numeric magnitude; only parse success, shape and
truthiness matter).  The NaN / Infinity constants CPython json accepts are
represented by their lexemes as well.  Objects are association lists in
insertion order with a later duplicate key overwriting the value at the
first occurrence, mirroring the Python dict the decoder builds. -/
inductive JVal where
  | jnull : JVal
  | jbool : Bool → JVal
  | jnum : String → JVal
  | jstr : String → JVal
  | jarr : List JVal → JVal
  | jobj : List (String × JVal) → JVal

/-- The object alternative of a JVal, when it is one. -/
def asObj : Option JVal → Option (List (String × JVal))
  | some (JVal.jobj o) => some o
  | _ => none

/-- Python dict.get(key) on a decoded JSON object. -/
def jget (kvs : List (String × JVal)) (k : String) : Option JVal :=
  match kvs with
  | [] => none
  | (k2, v) :: rest => if k2 = k then some v else jget rest k

/-- Python dict assignment d[k] = v: overwrite in place or append. -/
def objInsert (kvs : List (String × JVal)) (k : String) (v : JVal) :
    List (String × JVal) :=
  match kvs with
  | [] => [(k, v)]
  | (k2, v2) :: rest =>
    if k2 = k then (k2, v) :: rest else (k2, v2) :: objInsert rest k v

/-- JSON whitespace (space, tab, newline, carriage return). -/
def jsonWs (c : Char) : Bool :=
  c = ' ' || c = '\t' || c = '\n' || c = '\r'

/-- Skip JSON whitespace. -/
def skipWs : List Char → List Char
  | [] => []
  | c :: cs => if jsonWs c then skipWs cs else c :: cs

/-- Value of one hexadecimal digit. -/
def hexDigitVal (c : Char) : Option Nat :=
  if '0' ≤ c ∧ c ≤ '9' then some (c.toNat - '0'.toNat)
  else if 'a' ≤ c ∧ c ≤ 'f' then some (c.toNat - 'a'.toNat + 10)
  else if 'A' ≤ c ∧ c ≤ 'F' then some (c.toNat - 'A'.toNat + 10)
  else none

/-- Four hexadecimal digits, as in a \uXXXX escape. -/
def parseHex4 : List Char → Option (Nat × List Char)
  | a :: b :: c :: d :: rest =>
    match hexDigitVal a, hexDigitVal b, hexDigitVal c, hexDigitVal d with
    | some x, some y, some z, some w =>
      some (((x * 16 + y) * 16 + z) * 16 + w, rest)
    | _, _, _, _ => none
  | _ => none

/-- Single-character JSON string escapes. -/
def escChar (c : Char) : Option Char :=
  if c = '"' then some '"'
  else if c = '\\' then some '\\'
  else if c = '/' then some '/'
  else if c = 'b' then some '\x08'
  else if c = 'f' then some '\x0c'
  else if c = 'n' then some '\n'
  else if c = 'r' then some '\r'
  else if c = 't' then some '\t'
  else none

/-- Body of a JSON string after the opening quote, in strict mode: raw
control characters are rejected, escapes are decoded, a high surrogate
followed by an escaped low surrogate combines into one code point.  (A lone
surrogate, which CPython keeps verbatim, is mapped through Char.ofNat since
Lean chars cannot hold surrogates; no verified claim touches that corner.) -/
def parseStringRest : Nat → List Char → List Char → Option (String × List Char)
  | 0, _, _ => none
  | _, _, [] => none
  | fuel + 1, acc, c :: rest =>
    if c = '"' then some (String.mk acc.reverse, rest)
    else if c = '\\' then
      match rest with
      | [] => none
      | e :: rest1 =>
        if e = 'u' then
          match parseHex4 rest1 with
          | none => none
          | some (n, rest2) =>
            if 0xD800 ≤ n ∧ n < 0xDC00 then
              match rest2 with
              | '\\' :: 'u' :: rest3 =>
                match parseHex4 rest3 with
                | some (m, rest4) =>
                  if 0xDC00 ≤ m ∧ m < 0xE000 then
                    parseStringRest fuel
                      (Char.ofNat (0x10000 + (n - 0xD800) * 0x400 + (m - 0xDC00)) :: acc)
                      rest4
                  else parseStringRest fuel (Char.ofNat n :: acc) rest2
                | none => parseStringRest fuel (Char.ofNat n :: acc) rest2
              | _ => parseStringRest fuel (Char.ofNat n :: acc) rest2
            else parseStringRest fuel (Char.ofNat n :: acc) rest2
        else
          match escChar e with
          | some d => parseStringRest fuel (d :: acc) rest1
          | none => none
    else if c.toNat < 0x20 then none
    else parseStringRest fuel (c :: acc) rest

/-- One or more leading decimal digits. -/
def takeDigits : List Char → List Char × List Char
  | [] => ([], [])
  | c :: cs =>
    if c.isDigit then
      let r := takeDigits cs
      (c :: r.1, r.2)
    else ([], c :: cs)

/-- Integer part of the JSON number grammar: 0, or a nonzero digit followed
by digits. -/
def parseIntPart : List Char → Option (List Char × List Char)
  | [] => none
  | '0' :: cs => some (['0'], cs)
  | c :: cs =>
    if c.isDigit then
      let r := takeDigits cs
      some (c :: r.1, r.2)
    else none

/-- JSON number per the CPython regex
-?(0|[1-9][0-9]*)(\.[0-9]+)?([eE][-+]?[0-9]+)?; a dot or exponent not
followed by digits is left unconsumed.  The lexeme is kept. -/
def parseNumber (cs : List Char) : Option (JVal × List Char) :=
  let sgn := match cs with
    | '-' :: r => (['-'], r)
    | _ => (([] : List Char), cs)
  match parseIntPart sgn.2 with
  | none => none
  | some (ip, cs2) =>
    let fp := match cs2 with
      | '.' :: r =>
        match takeDigits r with
        | ([], _) => (([] : List Char), cs2)
        | (ds, r2) => ('.' :: ds, r2)
      | _ => (([] : List Char), cs2)
    let ep := match fp.2 with
      | c :: r =>
        if c = 'e' || c = 'E' then
          let s2 := match r with
            | '+' :: rr => (['+'], rr)
            | '-' :: rr => (['-'], rr)
            | _ => (([] : List Char), r)
          match takeDigits s2.2 with
          | ([], _) => (([] : List Char), fp.2)
          | (ds, r3) => (c :: (s2.1 ++ ds), r3)
        else (([] : List Char), fp.2)
      | [] => (([] : List Char), fp.2)
    some (JVal.jnum (String.mk (sgn.1 ++ ip ++ fp.1 ++ ep.1)), ep.2)

/-- Parser mode: a single value, the members of an object after its opening
brace (first key at hand), or the elements of an array (first element at
hand); the accumulators carry what was already parsed. -/
inductive PMode where
  | value : PMode
  | members : List (String × JVal) → PMode
  | elements : List JVal → PMode

/-- Recursive-descent JSON parser, fuelled for structural termination.
Mirrors the CPython pure-Python scanner: whitespace is skipped between
tokens, objects need string keys and colon separators, no trailing commas,
and the NaN / Infinity / -Infinity constants are accepted. -/
def parseCore : Nat → PMode → List Char → Option (JVal × List Char)
  | 0, _, _ => none
  | fuel + 1, PMode.value, cs =>
    match cs with
    | [] => none
    | '\x7b' :: rest =>
      let rest2 := skipWs rest
      (match rest2 with
       | '\x7d' :: rest3 => some (JVal.jobj [], rest3)
       | _ => parseCore fuel (PMode.members []) rest2)
    | '[' :: rest =>
      let rest2 := skipWs rest
      (match rest2 with
       | ']' :: rest3 => some (JVal.jarr [], rest3)
       | _ => parseCore fuel (PMode.elements []) rest2)
    | '"' :: rest =>
      (match parseStringRest (rest.length + 1) [] rest with
       | some (s, rest2) => some (JVal.jstr s, rest2)
       | none => none)
    | 'n' :: 'u' :: 'l' :: 'l' :: rest => some (JVal.jnull, rest)
    | 't' :: 'r' :: 'u' :: 'e' :: rest => some (JVal.jbool true, rest)
    | 'f' :: 'a' :: 'l' :: 's' :: 'e' :: rest => some (JVal.jbool false, rest)
    | 'N' :: 'a' :: 'N' :: rest => some (JVal.jnum "NaN", rest)
    | 'I' :: 'n' :: 'f' :: 'i' :: 'n' :: 'i' :: 't' :: 'y' :: rest =>
      some (JVal.jnum "Infinity", rest)
    | '-' :: 'I' :: 'n' :: 'f' :: 'i' :: 'n' :: 'i' :: 't' :: 'y' :: rest =>
      some (JVal.jnum "-Infinity", rest)
    | other => parseNumber other
  | fuel + 1, PMode.members acc, cs =>
    match cs with
    | '"' :: rest =>
      (match parseStringRest (rest.length + 1) [] rest with
       | none => none
       | some (key, cs1) =>
         match skipWs cs1 with
         | ':' :: cs2 =>
           (match parseCore fuel PMode.value (skipWs cs2) with
            | none => none
            | some (v, cs3) =>
              let acc2 := objInsert acc key v
              match skipWs cs3 with
              | ',' :: cs4 => parseCore fuel (PMode.members acc2) (skipWs cs4)
              | '\x7d' :: cs4 => some (JVal.jobj acc2, cs4)
              | _ => none)
         | _ => none)
    | _ => none
  | fuel + 1, PMode.elements acc, cs =>
    match parseCore fuel PMode.value cs with
    | none => none
    | some (v, cs1) =>
      match skipWs cs1 with
      | ',' :: cs2 => parseCore fuel (PMode.elements (acc ++ [v])) (skipWs cs2)
      | ']' :: cs2 => some (JVal.jarr (acc ++ [v]), cs2)
      | _ => none

/-- json.loads on a character list: skip leading whitespace, decode one
value, and require only whitespace to remain. -/
def loadsChars (cs : List Char) : Option JVal :=
  match parseCore (cs.length + 2) PMode.value (skipWs cs) with
  | some (v, rest) => if skipWs rest = [] then some v else none
  | none => none

/-- json.loads on a string. -/
def json_loads (text : String) : Option JVal :=
  loadsChars text.toList

-- ===========================================================================
-- amplifier._extract_json
-- ===========================================================================

/-- One backward-scan probe of _extract_json: at index i, when the character
there is an opening brace, the suffix from i is parsed and kept when it is a
JSON object. -/
def tryAt (cs : List Char) (i : Nat) : Option (List (String × JVal)) :=
  if cs.get? i = some '\x7b' then asObj (loadsChars (cs.drop i)) else none

/-- The backward scan of _extract_json: indices n-1, n-2, ..., 0 are probed
in that order and the first success wins. -/
def scanBack (cs : List Char) : Nat → Option (List (String × JVal))
  | 0 => none
  | n + 1 =>
    match tryAt cs n with
    | some o => some o
    | none => scanBack cs n

/-- amplifier._extract_json: first try to parse the whole string, returning
it when it decodes to a JSON object; otherwise scan backward for the last
opening brace from which a valid JSON object parses; otherwise absent. -/
def _extract_json (text : String) : Option (List (String × JVal)) :=
  match asObj (json_loads text) with
  | some o => some o
  | none => scanBack text.toList text.toList.length

-- ===========================================================================
-- storage.py: Meta counters
-- ===========================================================================

/-- models.Meta: the auto-increment counters persisted in meta.json. -/
structure Meta where
  next_issue_id : Int := 1
  next_comment_id : Int := 1
deriving DecidableEq

/-- The persisted meta.json file: absent before the first write. -/
def MetaFile : Type := Option Meta

namespace ProjectStorage

/-- ProjectStorage.read_meta: a missing file reads as the default Meta. -/
def read_meta (store : Option Meta) : Meta :=
  store.getD {}

/-- ProjectStorage.next_issue_id: read the current counter, persist the
counter incremented by one, return the old value. -/
def next_issue_id (store : Option Meta) : Int × Option Meta :=
  let meta := read_meta store
  let current := meta.next_issue_id
  (current, some { meta with next_issue_id := current + 1 })

/-- ProjectStorage.next_comment_id, same shape as next_issue_id. -/
def next_comment_id (store : Option Meta) : Int × Option Meta :=
  let meta := read_meta store
  let current := meta.next_comment_id
  (current, some { meta with next_comment_id := current + 1 })

end ProjectStorage

/-- N sequential calls to next_issue_id, collecting the returned ids and the
final store state. -/
def allocIssueIds : Nat → Option Meta → List Int × Option Meta
  | 0, store => ([], store)
  | n + 1, store =>
    let r := ProjectStorage.next_issue_id store
    let rest := allocIssueIds n r.2
    (r.1 :: rest.1, rest.2)

/-- N sequential calls to next_comment_id. -/
def allocCommentIds : Nat → Option Meta → List Int × Option Meta
  | 0, store => ([], store)
  | n + 1, store =>
    let r := ProjectStorage.next_comment_id store
    let rest := allocCommentIds n r.2
    (r.1 :: rest.1, rest.2)

-- ===========================================================================
-- models.py: issue-domain records (the fields list_issues reads)
-- ===========================================================================

/-- models.Label. -/
structure Label where
  id : Int
  name : String
  color : String := ""
  description : Option String := none
  is_default : Bool := false
deriving DecidableEq

/-- models.SimpleUser. -/
structure SimpleUser where
  login : String
  id : Int := 0
  avatar_url : String := ""
  user_type : String := "User"
deriving DecidableEq

/-- models.Issue, with datetimes as Int timestamps (only their ordering is
used, by sorting). -/
structure Issue where
  id : Int
  number : Int
  title : String := ""
  body : Option String := none
  state : String := "open"
  state_reason : Option String := none
  labels : List Label := []
  assignees : List SimpleUser := []
  comments : Int := 0
  created_at : Int
  updated_at : Int
  user : SimpleUser := { login := "local-user", id := 1 }
deriving DecidableEq

/-- models.IssueFilters: query parameters of list_issues.  The pydantic
model bounds per_page above (le=100) but not below, and page is unbounded. -/
structure IssueFilters where
  state : Option String := some "open"
  labels : Option String := none
  assignee : Option String := none
  sort : String := "created"
  direction : String := "desc"
  page : Int := 1
  per_page : Int := 30
deriving DecidableEq

/-- models.ListResponse specialised to Issue. -/
structure ListResponse where
  items : List Issue
  total_count : Int
  page : Int
  per_page : Int
deriving DecidableEq

-- ===========================================================================
-- storage.py: ProjectStorage.list_issues pipeline
-- ===========================================================================

namespace ProjectStorage

/-- State filter: applied when the state filter string is truthy and not
"all"; keeps issues whose state matches exactly. -/
def filterState (f : IssueFilters) (issues : List Issue) : List Issue :=
  match f.state with
  | none => issues
  | some st =>
    if st = "" then issues
    else if st = "all" then issues
    else issues.filter (fun i => i.state = st)

/-- The set of requested label names: the comma-separated filter string,
each piece stripped of surrounding whitespace. -/
def requiredLabelNames (s : String) : List String :=
  (pySplitChar ',' s.toList).map (fun cs => String.mk (pyStrip cs))

/-- Labels filter (AND logic): applied when the labels filter string is
truthy; keeps issues whose label-name set contains every requested name. -/
def filterLabels (f : IssueFilters) (issues : List Issue) : List Issue :=
  match f.labels with
  | none => issues
  | some ls =>
    if ls = "" then issues
    else
      let required := requiredLabelNames ls
      issues.filter (fun i =>
        required.all (fun r => (i.labels.map Label.name).contains r))

/-- Assignee filter: "none" keeps issues with no assignees, "*" keeps
issues with at least one, anything else matches a login exactly. -/
def filterAssignee (f : IssueFilters) (issues : List Issue) : List Issue :=
  match f.assignee with
  | none => issues
  | some a =>
    if a = "none" then issues.filter (fun i => i.assignees.isEmpty)
    else if a = "*" then issues.filter (fun i => !i.assignees.isEmpty)
    else issues.filter (fun i => i.assignees.any (fun u => u.login = a))

/-- The three filter stages of list_issues, in source order. -/
def filterIssues (f : IssueFilters) (issues : List Issue) : List Issue :=
  filterAssignee f (filterLabels f (filterState f issues))

end ProjectStorage

/-- Stable insertion into a key-sorted list: the new element goes before the
first element whose key is not smaller. -/
def insertByKey (key : Issue → Int) (x : Issue) : List Issue → List Issue
  | [] => [x]
  | y :: ys => if key y < key x then y :: insertByKey key x ys else x :: y :: ys

/-- Stable sort by an integer key, modelling Python list.sort(key=...)
(Timsort is stable; any stable sort agrees with it on a total key order). -/
def sortByKey (key : Issue → Int) : List Issue → List Issue
  | [] => []
  | x :: xs => insertByKey key x (sortByKey key xs)

namespace ProjectStorage

/-- The sort stage of list_issues: sort ascending by the selected key
(created_at for "created", updated_at for "updated", comments count for
"comments", and created_at again for anything else), then reverse when the
direction is "desc". -/
def sortIssues (f : IssueFilters) (issues : List Issue) : List Issue :=
  let sorted :=
    if f.sort = "created" then sortByKey (fun i => i.created_at) issues
    else if f.sort = "updated" then sortByKey (fun i => i.updated_at) issues
    else if f.sort = "comments" then sortByKey (fun i => i.comments) issues
    else sortByKey (fun i => i.created_at) issues
  if f.direction = "desc" then sorted.reverse else sorted

/-- ProjectStorage.list_issues on an in-memory issue list: filter, count,
sort, then paginate with per_page = min(per_page, 100), page = max(page, 1)
and the Python slice issues[offset : offset + per_page]. -/
def list_issues (issues : List Issue) (f : IssueFilters) : ListResponse :=
  let filtered := filterIssues f issues
  let total_count : Int := filtered.length
  let sorted := sortIssues f filtered
  let per_page := min f.per_page 100
  let page := max f.page 1
  let offset := (page - 1) * per_page
  let items := pySlice sorted offset (offset + per_page)
  { items := items, total_count := total_count, page := page, per_page := per_page }

end ProjectStorage

-- ===========================================================================
-- storage.py: git-backed commit (ProjectStorage.commit on an abstract
-- repository state)
-- ===========================================================================

/-- Abstract git repository state: the committed tree at HEAD, the staged
index, the working tree (each a file-name to content map) and the commit
log, newest message first. -/
structure Repo where
  head : List (String × String)
  index : List (String × String)
  worktree : List (String × String)
  log : List String
deriving DecidableEq

/-- git add -A: stage the entire working tree. -/
def gitAddAll (r : Repo) : Repo :=
  { r with index := r.worktree }

/-- git diff --cached --quiet: exit code 0 when the index matches HEAD,
1 when there are staged differences. -/
def gitDiffCachedQuiet (r : Repo) : Int :=
  if r.index = r.head then 0 else 1

/-- git commit -m message: record the staged tree as the new HEAD. -/
def gitCommit (message : String) (r : Repo) : Repo :=
  { r with head := r.index, log := message :: r.log }

namespace ProjectStorage

/-- ProjectStorage.commit: stage all changes, then commit only when the
staged diff is non-empty. -/
def commit (message : String) (r : Repo) : Repo :=
  let r1 := gitAddAll r
  let rc := gitDiffCachedQuiet r1
  if rc ≠ 0 then gitCommit message r1 else r1

end ProjectStorage

-- ===========================================================================
-- ws.py: WebSocketManager
-- ===========================================================================

/-- A connected WebSocket client, identified for the model by an id; fails
says whether a send to it raises. -/
structure Listener where
  id : Int
  fails : Bool
deriving DecidableEq

/-- The message broadcast serialises: json.dumps of the event name and the
payload dict.  The model keeps the structured content; it is built once per
broadcast and the same value is sent to every listener. -/
structure WsMessage where
  event : String
  data : List (String × JVal)

namespace WebSocketManager

/-- WebSocketManager.disconnect: remove the listener from the live list if
present (a no-op otherwise). -/
def disconnect (conns : List Listener) (ws : Listener) : List Listener :=
  if conns.contains ws then conns.erase ws else conns

/-- The delivery loop of broadcast: walk the registered listeners in order;
a listener whose send raises is collected instead of aborting the pass.
Returns (successful deliveries in order, failed listeners in order). -/
def broadcastLoop (message : WsMessage) :
    List Listener → List (Listener × WsMessage) × List Listener
  | [] => ([], [])
  | ws :: rest =>
    let r := broadcastLoop message rest
    if ws.fails then (r.1, ws :: r.2) else ((ws, message) :: r.1, r.2)

/-- WebSocketManager.broadcast: serialise the message once, deliver it to
every listener connected at the start of the call, then disconnect the
listeners whose send failed, only after the full delivery pass. -/
def broadcast (conns : List Listener) (event : String)
    (data : List (String × JVal)) : List Listener × List (Listener × WsMessage) :=
  let message : WsMessage := { event := event, data := data }
  let r := broadcastLoop message conns
  let conns2 := r.2.foldl disconnect conns
  (conns2, r.1)

end WebSocketManager

-- ===========================================================================
-- amplifier.py: sessions, run, and the supervising task
-- ===========================================================================

/-- amplifier.AmplifierSession, without the process / task handles (runtime
objects); error holds whatever Python object the code assigns. -/
structure AmpSession where
  project_name : String
  issue_number : Int
  status : String
  started_at : String
  finished_at : Option String := none
  error : Option JVal := none

/-- The broadcast events the session manager emits, with their payloads. -/
inductive AmpEvent where
  | amplifier_started : String → Int → AmpEvent
  | amplifier_completed : String → Int → Int → AmpEvent
  | amplifier_failed : String → Int → Option JVal → AmpEvent

/-- Python dict lookup d.get(k) on the session map. -/
def pyDictGet {α : Type} : List (String × α) → String → Option α
  | [], _ => none
  | (k2, v) :: rest, k => if k2 = k then some v else pyDictGet rest k

/-- Python dict assignment d[k] = v on the session map: overwrite in place
or append. -/
def pyDictSet {α : Type} : List (String × α) → String → α → List (String × α)
  | [], k, v => [(k, v)]
  | (k2, v2) :: rest, k, v =>
    if k2 = k then (k2, v) :: rest else (k2, v2) :: pyDictSet rest k v

namespace AmplifierManager

/-- AmplifierManager._key. -/
def sessionKey (project_name : String) (issue_number : Int) : String :=
  project_name ++ "#" ++ toString issue_number

/-- The ValueError message run raises on a duplicate running session. -/
def alreadyRunningMsg (project_name : String) (issue_number : Int) : String :=
  "Amplifier session already running for " ++ project_name ++
    " issue #" ++ toString issue_number

/-- The session record run stores before broadcasting the started event. -/
def freshSession (project_name : String) (issue_number : Int) (now : String) :
    AmpSession :=
  { project_name := project_name, issue_number := issue_number,
    status := "running", started_at := now }

/-- Observable outcome of one run call: the raised-or-ok result, the session
map afterwards, whether a subprocess was spawned, and the events broadcast. -/
structure RunOutcome where
  result : Except String Unit
  sessions : List (String × AmpSession)
  spawned : Bool
  events : List AmpEvent

/-- AmplifierManager.run on the session map: reject when the existing
session for the key is running; otherwise spawn the subprocess, store a
fresh running session under the key and broadcast the started event. -/
def run (sessions : List (String × AmpSession)) (project_name : String)
    (issue_number : Int) (now : String) : RunOutcome :=
  let key := sessionKey project_name issue_number
  let existing := pyDictGet sessions key
  let isRunning := match existing with
    | some s => s.status == "running"
    | none => false
  if isRunning then
    { result := Except.error (alreadyRunningMsg project_name issue_number),
      sessions := sessions, spawned := false, events := [] }
  else
    let session := freshSession project_name issue_number now
    { result := Except.ok (),
      sessions := pyDictSet sessions key session,
      spawned := true,
      events := [AmpEvent.amplifier_started project_name issue_number] }

/-- The HTTP status the routing layer maps a run outcome to: a ValueError
becomes 409 Conflict, an accepted run 202. -/
def httpStatusOfRun (o : RunOutcome) : Int :=
  match o.result with
  | Except.error _ => 409
  | Except.ok _ => 202

end AmplifierManager

-- ===========================================================================
-- amplifier.py: the supervising task _wait
-- ===========================================================================

/-- The stderr fallback message of _wait: the last 10 lines of stderr joined
by newlines, or an exit-code message when that tail is empty. -/
def stderrFallbackMsg (stderr : String) (returncode : Int) : String :=
  let lines := pySplitlines stderr
  let tail := String.mk (joinNewline (lines.drop (lines.length - 10)))
  if tail = "" then "Process exited with code " ++ toString returncode else tail

/-- Interpretation of the subprocess result in _wait: from the extracted
JSON object, a success yields the response field (defaulting to the empty
string) as the comment body; any other status yields the error field
(defaulting to a fixed message); no recovered object yields the stderr
fallback message.  Returns (comment_body, error_msg). -/
def interpretResult (parsed : Option (List (String × JVal))) (stderr : String)
    (returncode : Int) : Option JVal × Option JVal :=
  match parsed with
  | some obj =>
    let isSuccess := match jget obj "status" with
      | some (JVal.jstr s) => s == "success"
      | _ => false
    if isSuccess then
      (some ((jget obj "response").getD (JVal.jstr "")), none)
    else
      (none, some ((jget obj "error").getD (JVal.jstr "Amplifier session failed")))
  | none =>
    (none, some (JVal.jstr (stderrFallbackMsg stderr returncode)))

/-- Nonzero test of a JSON number lexeme (Python truthiness of the decoded
int or float: zero is falsy; NaN and the infinities are truthy). -/
def numLexNonzero (lex : String) : Bool :=
  if lex = "NaN" || lex = "Infinity" || lex = "-Infinity" then true
  else
    let cs := match lex.toList with
      | '-' :: r => r
      | other => other
    (cs.takeWhile (fun c => !(c == 'e') && !(c == 'E'))).any
      (fun c => decide ('1' ≤ c) && decide (c ≤ '9'))

/-- Python truthiness of a decoded JSON value. -/
def pyTruthy : JVal → Bool
  | JVal.jnull => false
  | JVal.jbool b => b
  | JVal.jnum lex => numLexNonzero lex
  | JVal.jstr s => s != ""
  | JVal.jarr xs => !xs.isEmpty
  | JVal.jobj kvs => !kvs.isEmpty

/-- The comment body expression of _wait:
comment_body if comment_body is not None else (error_msg or ""). -/
def sessionBodyValue (comment_body error_msg : Option JVal) : JVal :=
  match comment_body with
  | some v => v
  | none =>
    match error_msg with
    | some v => if pyTruthy v then v else JVal.jstr ""
    | none => JVal.jstr ""

/-- Pydantic validation of Comment.body, a str field: a non-string value
raises. -/
def validateStr : JVal → Except String String
  | JVal.jstr s => Except.ok s
  | _ => Except.error "ValidationError: Comment.body expects a string"

/-- Environment of one _wait execution: the captured subprocess output and
exit code, the two datetime.now readings, and the outcome of each fallible
store operation in the order the task performs them. -/
structure WaitEnv where
  stdout : String
  stderr : String
  returncode : Int
  finish_time : String
  fail_time : String
  sync : Except String Unit
  next_comment_id : Except String Int
  write_comment : Except String Unit
  read_issue : Except String (Option Issue)
  write_issue : Except String Unit
  commit : Except String Unit
  push : Except String Unit

namespace AmplifierManager

/-- The try-block of _wait: interpret the subprocess result, persist it as a
bot comment (sync, allocate a comment id, validate and write the comment,
bump and rewrite the issue when it exists, commit, push), then mark the
session completed or failed and emit the matching event.  Any failing step
short-circuits with its message. -/
def wait_body (env : WaitEnv) (s : AmpSession) :
    Except String (AmpSession × List AmpEvent) :=
  let parsed := _extract_json env.stdout
  let cbem := interpretResult parsed env.stderr env.returncode
  let comment_body := cbem.1
  let error_msg := cbem.2
  match env.sync with
  | Except.error e => Except.error e
  | Except.ok _ =>
    match env.next_comment_id with
    | Except.error e => Except.error e
    | Except.ok next_id =>
      match validateStr (sessionBodyValue comment_body error_msg) with
      | Except.error e => Except.error e
      | Except.ok _body_str =>
        match env.write_comment with
        | Except.error e => Except.error e
        | Except.ok _ =>
          match env.read_issue with
          | Except.error e => Except.error e
          | Except.ok issueOpt =>
            match (match issueOpt with
                   | some _ => env.write_issue
                   | none => Except.ok ()) with
            | Except.error e => Except.error e
            | Except.ok _ =>
              match env.commit with
              | Except.error e => Except.error e
              | Except.ok _ =>
                match env.push with
                | Except.error e => Except.error e
                | Except.ok _ =>
                  let s1 := { s with finished_at := some env.finish_time }
                  match comment_body with
                  | some _ =>
                    Except.ok ({ s1 with status := "completed" },
                      [AmpEvent.amplifier_completed s.project_name s.issue_number next_id])
                  | none =>
                    Except.ok ({ s1 with status := "failed", error := error_msg },
                      [AmpEvent.amplifier_failed s.project_name s.issue_number error_msg])

/-- AmplifierManager._wait: the try-block, with the task-boundary handler
that converts any raised exception into a failed terminal session state plus
a failed broadcast event. -/
def wait (env : WaitEnv) (s : AmpSession) : AmpSession × List AmpEvent :=
  match wait_body env s with
  | Except.ok r => r
  | Except.error e =>
    let s2 : AmpSession :=
      { s with
        status := "failed"
        error := some (JVal.jstr e)
        finished_at := some env.fail_time }
    (s2, [AmpEvent.amplifier_failed s.project_name s.issue_number (some (JVal.jstr e))])

end AmplifierManager

-- ===========================================================================
-- Concrete fixtures used by the closed witnesses and counterexamples
-- ===========================================================================

/-- An issue numbered and timestamped k, otherwise default. -/
def mkNumberedIssue (k : Nat) : Issue :=
  { id := k, number := k, created_at := k, updated_at := k }

/-- 25 open issues with distinct creation times. -/
def issues25 : List Issue := (List.range 25).map mkNumberedIssue

/-- Query page 3 at 10 per page. -/
def filtersPage3 : IssueFilters := { per_page := 10, page := 3 }

/-- Query page 4 at 10 per page. -/
def filtersPage4 : IssueFilters := { per_page := 10, page := 4 }

/-- Two issues, for the negative per_page counterexample. -/
def issuesPairCE : List Issue := [mkNumberedIssue 1, mkNumberedIssue 2]

/-- A filter whose per_page is negative: the pydantic model only bounds
per_page above, so this value reaches list_issues. -/
def filtersNegPerPage : IssueFilters := { per_page := -1 }

/-- Label named A. -/
def labelA : Label := { id := 1, name := "A" }

/-- Label named B. -/
def labelB : Label := { id := 2, name := "B" }

/-- Issue tagged with A only. -/
def issueOnlyA : Issue :=
  { id := 1, number := 1, labels := [labelA], created_at := 1, updated_at := 1 }

/-- Issue tagged with both A and B. -/
def issueBothAB : Issue :=
  { id := 2, number := 2, labels := [labelA, labelB], created_at := 2, updated_at := 2 }

/-- Issue tagged with B only. -/
def issueOnlyB : Issue :=
  { id := 3, number := 3, labels := [labelB], created_at := 3, updated_at := 3 }

/-- The three labelled issues of the filtering example. -/
def issuesLabelled : List Issue := [issueOnlyA, issueBothAB, issueOnlyB]

/-- Label filter requesting A and B. -/
def filtersLabelsAB : IssueFilters := { labels := some "A,B" }

/-- A filter with a sort key outside the recognised set. -/
def filtersSortBogus : IssueFilters := { sort := "oldest" }

/-- First listener, sends succeed. -/
def listenerOne : Listener := { id := 1, fails := false }

/-- Second listener, sends fail. -/
def listenerTwo : Listener := { id := 2, fails := true }

/-- Third listener, sends succeed. -/
def listenerThree : Listener := { id := 3, fails := false }

/-- Three registered listeners of which the middle one fails. -/
def threeListeners : List Listener := [listenerOne, listenerTwo, listenerThree]

/-- A session currently running. -/
def runningSessionFix : AmpSession :=
  { project_name := "proj", issue_number := 7, status := "running", started_at := "t0" }

/-- A session that completed. -/
def completedSessionFix : AmpSession :=
  { project_name := "proj", issue_number := 7, status := "completed",
    started_at := "t0", finished_at := some "t1" }

/-- Session map holding a running session for proj#7. -/
def sessionsRunningFix : List (String × AmpSession) :=
  [(AmplifierManager.sessionKey "proj" 7, runningSessionFix)]

/-- Session map holding a completed session for proj#7. -/
def sessionsDoneFix : List (String × AmpSession) :=
  [(AmplifierManager.sessionKey "proj" 7, completedSessionFix)]

/-- A wait environment whose store sync raises. -/
def envSyncFail : WaitEnv :=
  { stdout := "", stderr := "", returncode := 1,
    finish_time := "tf", fail_time := "tx",
    sync := Except.error "boom",
    next_comment_id := Except.ok 1,
    write_comment := Except.ok (),
    read_issue := Except.ok none,
    write_issue := Except.ok (),
    commit := Except.ok (),
    push := Except.ok () }

/-- A wait environment whose subprocess printed a top-level JSON array. -/
def envArrayStdout : WaitEnv :=
  { stdout := "[1, 2, 3]", stderr := "err line", returncode := 2,
    finish_time := "tf", fail_time := "tx",
    sync := Except.ok (),
    next_comment_id := Except.ok 1,
    write_comment := Except.ok (),
    read_issue := Except.ok none,
    write_issue := Except.ok (),
    commit := Except.ok (),
    push := Except.ok () }

/-- A concrete meta file with counters 5 and 7. -/
def metaFix : Option Meta := some { next_issue_id := 5, next_comment_id := 7 }

/-- The completed-branch result of the supervising task body. -/
def waitCompletedResult (env : WaitEnv) (s : AmpSession) (next_id : Int) :
    AmpSession × List AmpEvent :=
  ({ s with
      finished_at := some env.finish_time
      status := "completed" },
   [AmpEvent.amplifier_completed s.project_name s.issue_number next_id])

/-- The failed-branch result of the supervising task body (no comment body
was recovered; the interpreted error message is recorded and broadcast). -/
def waitFailedResult (env : WaitEnv) (s : AmpSession) :
    AmpSession × List AmpEvent :=
  ({ s with
      finished_at := some env.finish_time
      status := "failed"
      error := (interpretResult (_extract_json env.stdout) env.stderr env.returncode).2 },
   [AmpEvent.amplifier_failed s.project_name s.issue_number
     (interpretResult (_extract_json env.stdout) env.stderr env.returncode).2])

/-- The session record left behind by a run of envArrayStdout. -/
def sessionAfterArrayRun : AmpSession :=
  { project_name := "proj"
    issue_number := 7
    status := "failed"
    started_at := "t0"
    finished_at := some "tf"
    error := some (JVal.jstr "err line") }

-- ===========================================================================
-- Theorems.  Backward-scan characterisation of _extract_json.
-- ===========================================================================

/-- The backward scan succeeds exactly at the last probed index that yields
an object: below the bound, a hit at i, and nothing between i and the bound. -/
theorem scanBack_some_iff (cs : List Char) :
    ∀ (n : Nat) (o : List (String × JVal)),
      scanBack cs n = some o ↔
        ∃ i, i < n ∧ tryAt cs i = some o ∧
          ∀ j, i < j → j < n → tryAt cs j = none := by
  intro n
  induction n with
  | zero => intro o; simp [scanBack]
  | succ n ih =>
    intro o
    constructor
    · intro h
      simp only [scanBack] at h
      cases htry : tryAt cs n with
      | some o2 =>
        rw [htry] at h
        simp at h
        refine ⟨n, Nat.lt_succ_self n, ?_, ?_⟩
        · rw [htry, h]
        · intro j hj1 hj2
          omega
      | none =>
        rw [htry] at h
        simp at h
        obtain ⟨i, hi, hhit, hnone⟩ := (ih o).1 h
        refine ⟨i, Nat.lt_succ_of_lt hi, hhit, ?_⟩
        intro j hj1 hj2
        rcases Nat.lt_succ_iff_lt_or_eq.1 hj2 with h3 | rfl
        · exact hnone j hj1 h3
        · exact htry
    · rintro ⟨i, hi, hhit, hnone⟩
      simp only [scanBack]
      rcases Nat.lt_succ_iff_lt_or_eq.1 hi with h3 | rfl
      · have hn : tryAt cs n = none := hnone n h3 (Nat.lt_succ_self n)
        rw [hn]
        exact (ih o).2 ⟨i, h3, hhit, fun j hj1 hj2 => hnone j hj1 (Nat.lt_succ_of_lt hj2)⟩
      · rw [hhit]

/-- The backward scan fails exactly when no probed index yields an object. -/
theorem scanBack_none_iff (cs : List Char) :
    ∀ n : Nat, scanBack cs n = none ↔ ∀ i, i < n → tryAt cs i = none := by
  intro n
  induction n with
  | zero => simp [scanBack]
  | succ n ih =>
    simp only [scanBack]
    cases htry : tryAt cs n with
    | some o2 =>
      constructor
      · intro h; simp at h
      · intro h
        exact absurd (h n (Nat.lt_succ_self n)) (by simp [htry])
    | none =>
      simp only [ih]
      constructor
      · intro h i hi
        rcases Nat.lt_succ_iff_lt_or_eq.1 hi with h3 | rfl
        · exact h i h3
        · exact htry
      · intro h i hi
        exact h i (Nat.lt_succ_of_lt hi)

/-- Claim C3: _extract_json first attempts a whole-string JSON parse and
returns it when it is an object; otherwise it scans backward and returns the
object parsed from the last position at which an opening brace starts a
valid JSON object, or absent when no position succeeds; in particular the
noisy-prefix example extracts the trailing object and a string with no JSON
yields absent. -/
theorem claim_C3 (text : String) :
    (∀ o, json_loads text = some (JVal.jobj o) → _extract_json text = some o)
    ∧ (asObj (json_loads text) = none →
        (∀ o, _extract_json text = some o ↔
            ∃ i, i < text.toList.length ∧ tryAt text.toList i = some o ∧
              ∀ j, i < j → j < text.toList.length → tryAt text.toList j = none)
        ∧ (_extract_json text = none ↔
            ∀ i, i < text.toList.length → tryAt text.toList i = none))
    ∧ _extract_json "garbage\x7b\"status\":\"success\",\"response\":\"ok\"\x7d"
        = some [("status", JVal.jstr "success"), ("response", JVal.jstr "ok")]
    ∧ _extract_json "no json here" = none := by
  refine ⟨?_, ?_, rfl, rfl⟩
  · intro o h
    simp [_extract_json, h, asObj]
  · intro h
    constructor
    · intro o
      simp only [_extract_json, h]
      exact scanBack_some_iff text.toList text.toList.length o
    · simp only [_extract_json, h]
      exact scanBack_none_iff text.toList text.toList.length

/-- Closed instance of claim C3 at a concrete input. -/
theorem claim_C3_witness : _extract_json "\x7b\x7d" = some [] :=
  (claim_C3 "\x7b\x7d").1 [] rfl

/-- Shape of a normally-returning supervising task body: it ends either on
the completed branch (some comment body was recovered) or on the failed
branch carrying the interpreted error, each with its single event. -/
theorem wait_body_ok_cases (env : WaitEnv) (s : AmpSession)
    (r : AmpSession × List AmpEvent)
    (h : AmplifierManager.wait_body env s = Except.ok r) :
    (∃ next_id,
        (interpretResult (_extract_json env.stdout) env.stderr env.returncode).1.isSome
        ∧ r = waitCompletedResult env s next_id)
    ∨ ((interpretResult (_extract_json env.stdout) env.stderr env.returncode).1 = none
        ∧ r = waitFailedResult env s) := by
  obtain ⟨stdout, stderr, rc, ftime, xtime, sy, nc, wc, ri, wi, cm, ps⟩ := env
  simp only [AmplifierManager.wait_body] at h
  dsimp only at h ⊢
  cases sy with
  | error e => simp at h
  | ok u =>
  cases nc with
  | error e => simp at h
  | ok next_id =>
  cases hv : validateStr (sessionBodyValue
      (interpretResult (_extract_json stdout) stderr rc).1
      (interpretResult (_extract_json stdout) stderr rc).2) with
  | error e => rw [hv] at h; simp at h
  | ok bodyStr =>
  rw [hv] at h
  cases wc with
  | error e => simp at h
  | ok u2 =>
  cases ri with
  | error e => simp at h
  | ok issueOpt =>
  cases issueOpt with
  | some issue =>
    cases wi with
    | error e => simp at h
    | ok u3 =>
    cases cm with
    | error e => simp at h
    | ok u4 =>
    cases ps with
    | error e => simp at h
    | ok u5 =>
    cases hcb : (interpretResult (_extract_json stdout) stderr rc).1 with
    | some v =>
      rw [hcb] at h
      simp at h
      subst h
      exact Or.inl ⟨next_id, rfl, rfl⟩
    | none =>
      rw [hcb] at h
      simp at h
      subst h
      exact Or.inr ⟨rfl, rfl⟩
  | none =>
    cases cm with
    | error e => simp at h
    | ok u4 =>
    cases ps with
    | error e => simp at h
    | ok u5 =>
    cases hcb : (interpretResult (_extract_json stdout) stderr rc).1 with
    | some v =>
      rw [hcb] at h
      simp at h
      subst h
      exact Or.inl ⟨next_id, rfl, rfl⟩
    | none =>
      rw [hcb] at h
      simp at h
      subst h
      exact Or.inr ⟨rfl, rfl⟩

/-- Claim C6: the supervising task always leaves the session in a terminal
state and always emits an event; any exception raised by a step of the
result-handling sequence is caught at the task boundary, marks the session
failed with the exception message and a finished timestamp, and broadcasts
the failed event carrying that error. -/
theorem claim_C6 (env : WaitEnv) (s : AmpSession) :
    ((AmplifierManager.wait env s).1.status = "completed" ∨
        (AmplifierManager.wait env s).1.status = "failed")
    ∧ (AmplifierManager.wait env s).2 ≠ []
    ∧ (∀ e, AmplifierManager.wait_body env s = Except.error e →
        (AmplifierManager.wait env s).1.status = "failed" ∧
        (AmplifierManager.wait env s).1.error = some (JVal.jstr e) ∧
        (AmplifierManager.wait env s).1.finished_at = some env.fail_time ∧
        (AmplifierManager.wait env s).2 =
          [AmpEvent.amplifier_failed s.project_name s.issue_number
            (some (JVal.jstr e))]) := by
  refine ⟨?_, ?_, ?_⟩
  · cases h : AmplifierManager.wait_body env s with
    | error e => simp [AmplifierManager.wait, h]
    | ok r =>
      rcases wait_body_ok_cases env s r h with ⟨nid, _, hr⟩ | ⟨_, hr⟩ <;>
        simp [AmplifierManager.wait, h, hr, waitCompletedResult, waitFailedResult]
  · cases h : AmplifierManager.wait_body env s with
    | error e => simp [AmplifierManager.wait, h]
    | ok r =>
      rcases wait_body_ok_cases env s r h with ⟨nid, _, hr⟩ | ⟨_, hr⟩ <;>
        simp [AmplifierManager.wait, h, hr, waitCompletedResult, waitFailedResult]
  · intro e he
    simp [AmplifierManager.wait, he]

/-- Closed instance of claim C6: a failing store sync is converted into a
failed session and a failed event. -/
theorem claim_C6_witness :
    (AmplifierManager.wait envSyncFail runningSessionFix).1.status = "failed" ∧
    (AmplifierManager.wait envSyncFail runningSessionFix).1.error
      = some (JVal.jstr "boom") ∧
    (AmplifierManager.wait envSyncFail runningSessionFix).1.finished_at
      = some "tx" ∧
    (AmplifierManager.wait envSyncFail runningSessionFix).2
      = [AmpEvent.amplifier_failed "proj" 7 (some (JVal.jstr "boom"))] :=
  (claim_C6 envSyncFail runningSessionFix).2.2 "boom" rfl

/-- Claim C9 (implicit): _extract_json returns only objects recovered from
an object parse of the whole string or of a brace-opened suffix; when
neither exists it returns absent; a top-level JSON array yields absent; and
a run whose stdout yields no object is routed by the supervising task to the
failed branch carrying the stderr-tail (or exit-code) message. -/
theorem claim_C9 (text : String) (env : WaitEnv) (s : AmpSession) :
    (∀ o, _extract_json text = some o →
        asObj (json_loads text) = some o ∨
          ∃ i, i < text.toList.length ∧ tryAt text.toList i = some o)
    ∧ ((asObj (json_loads text) = none ∧
          ∀ i, i < text.toList.length → tryAt text.toList i = none) →
        _extract_json text = none)
    ∧ _extract_json "[1, 2, 3]" = none
    ∧ (_extract_json env.stdout = none →
        ∀ s2 evs, AmplifierManager.wait_body env s = Except.ok (s2, evs) →
          s2.status = "failed" ∧
            s2.error = some (JVal.jstr (stderrFallbackMsg env.stderr env.returncode))) := by
  refine ⟨?_, ?_, rfl, ?_⟩
  · intro o h
    unfold _extract_json at h
    cases hob : asObj (json_loads text) with
    | some o2 =>
      rw [hob] at h
      simp at h
      exact Or.inl (by rw [h])
    | none =>
      rw [hob] at h
      simp at h
      obtain ⟨i, hi, hhit, _⟩ := (scanBack_some_iff text.toList text.toList.length o).1 h
      exact Or.inr ⟨i, hi, hhit⟩
  · rintro ⟨hob, hall⟩
    simp only [_extract_json, hob]
    exact (scanBack_none_iff text.toList text.toList.length).2 hall
  · intro hnone s2 evs h
    have hint : interpretResult (_extract_json env.stdout) env.stderr env.returncode
        = (none, some (JVal.jstr (stderrFallbackMsg env.stderr env.returncode))) := by
      rw [hnone]; rfl
    rcases wait_body_ok_cases env s (s2, evs) h with ⟨nid, hsome, _⟩ | ⟨_, hr⟩
    · rw [hint] at hsome
      simp at hsome
    · have h1 : s2 = (waitFailedResult env s).1 := congrArg Prod.fst hr
      rw [h1]
      simp [waitFailedResult, hint]

/-- Closed instance of claim C9: a top-level JSON array in stdout is treated
as no recoverable result and the task lands on the stderr-tail failure path. -/
theorem claim_C9_witness :
    _extract_json "[1, 2, 3]" = none ∧
    (sessionAfterArrayRun.status = "failed" ∧
      sessionAfterArrayRun.error
        = some (JVal.jstr (stderrFallbackMsg "err line" 2))) :=
  ⟨(claim_C9 "[1, 2, 3]" envArrayStdout runningSessionFix).2.1
      ⟨rfl, by
        intro i hi
        have h9 : i < 9 := hi
        interval_cases i <;> rfl⟩,
    (claim_C9 "[1, 2, 3]" envArrayStdout runningSessionFix).2.2.2 rfl
      sessionAfterArrayRun
      [AmpEvent.amplifier_failed "proj" 7 (some (JVal.jstr "err line"))]
      rfl⟩

/-- Lookup after overwrite on the session map. -/
theorem pyDictGet_set_self {α : Type} (m : List (String × α)) (k : String) (v : α) :
    pyDictGet (pyDictSet m k v) k = some v := by
  induction m with
  | nil => simp [pyDictGet, pyDictSet]
  | cons kv rest ih =>
    obtain ⟨k2, v2⟩ := kv
    by_cases hk : k2 = k
    · simp [pyDictGet, pyDictSet, hk]
    · simp [pyDictGet, pyDictSet, hk, ih]

/-- Claim C1: while the session stored for a (project, issue) key is
running, run is rejected with the Conflict ValueError (mapped to 409 by the
route), leaves the session map unchanged and spawns nothing; once the stored
session is terminal (completed or failed), run succeeds (202), spawns the
subprocess, replaces the record with a fresh running session and broadcasts
the started event. -/
theorem claim_C1 (sessions : List (String × AmpSession)) (p : String)
    (i : Int) (now : String) :
    (∀ s, pyDictGet sessions (AmplifierManager.sessionKey p i) = some s →
        s.status = "running" →
        (AmplifierManager.run sessions p i now).result
            = Except.error (AmplifierManager.alreadyRunningMsg p i) ∧
        AmplifierManager.httpStatusOfRun (AmplifierManager.run sessions p i now) = 409 ∧
        (AmplifierManager.run sessions p i now).sessions = sessions ∧
        (AmplifierManager.run sessions p i now).spawned = false ∧
        (AmplifierManager.run sessions p i now).events = [])
    ∧ (∀ s, pyDictGet sessions (AmplifierManager.sessionKey p i) = some s →
        (s.status = "completed" ∨ s.status = "failed") →
        (AmplifierManager.run sessions p i now).result = Except.ok () ∧
        AmplifierManager.httpStatusOfRun (AmplifierManager.run sessions p i now) = 202 ∧
        (AmplifierManager.run sessions p i now).sessions
            = pyDictSet sessions (AmplifierManager.sessionKey p i)
                (AmplifierManager.freshSession p i now) ∧
        pyDictGet (AmplifierManager.run sessions p i now).sessions
            (AmplifierManager.sessionKey p i)
            = some (AmplifierManager.freshSession p i now) ∧
        (AmplifierManager.freshSession p i now).status = "running" ∧
        (AmplifierManager.run sessions p i now).spawned = true ∧
        (AmplifierManager.run sessions p i now).events
            = [AmpEvent.amplifier_started p i]) := by
  constructor
  · intro s hget hrun
    simp [AmplifierManager.run, AmplifierManager.httpStatusOfRun, hget, hrun]
  · intro s hget hterm
    have hne : s.status ≠ "running" := by
      rcases hterm with h1 | h1 <;> simp [h1]
    have hb : (s.status == "running") = false := beq_eq_false_iff_ne.mpr hne
    refine ⟨?_, ?_, ?_, ?_, rfl, ?_, ?_⟩ <;>
      simp [AmplifierManager.run, AmplifierManager.httpStatusOfRun, hget, hb,
        pyDictGet_set_self]

/-- Closed instance of claim C1: a running proj#7 session makes run raise
and leaves everything untouched; a completed proj#7 session is replaced by a
fresh running one. -/
theorem claim_C1_witness :
    ((AmplifierManager.run sessionsRunningFix "proj" 7 "t1").result
        = Except.error (AmplifierManager.alreadyRunningMsg "proj" 7)
      ∧ (AmplifierManager.run sessionsRunningFix "proj" 7 "t1").sessions
        = sessionsRunningFix
      ∧ (AmplifierManager.run sessionsRunningFix "proj" 7 "t1").spawned = false)
    ∧ ((AmplifierManager.run sessionsDoneFix "proj" 7 "t2").result = Except.ok ()
      ∧ pyDictGet (AmplifierManager.run sessionsDoneFix "proj" 7 "t2").sessions
          (AmplifierManager.sessionKey "proj" 7)
          = some (AmplifierManager.freshSession "proj" 7 "t2")) :=
  ⟨⟨((claim_C1 sessionsRunningFix "proj" 7 "t1").1 runningSessionFix rfl rfl).1,
    ((claim_C1 sessionsRunningFix "proj" 7 "t1").1 runningSessionFix rfl rfl).2.2.1,
    ((claim_C1 sessionsRunningFix "proj" 7 "t1").1 runningSessionFix rfl rfl).2.2.2.1⟩,
   ⟨((claim_C1 sessionsDoneFix "proj" 7 "t2").2 completedSessionFix rfl (Or.inl rfl)).1,
    ((claim_C1 sessionsDoneFix "proj" 7 "t2").2 completedSessionFix rfl (Or.inl rfl)).2.2.2.1⟩⟩

/-- The ids returned by n sequential next_issue_id calls are the initial
counter value, then each successor. -/
theorem allocIssueIds_fst (n : Nat) : ∀ store : Option Meta,
    (allocIssueIds n store).1
      = (List.range n).map
          (fun (k : Nat) => (ProjectStorage.read_meta store).next_issue_id + (k : Int)) := by
  induction n with
  | zero => intro store; simp [allocIssueIds]
  | succ n ih =>
    intro store
    simp only [allocIssueIds, ProjectStorage.next_issue_id]
    rw [ih]
    simp only [ProjectStorage.read_meta, Option.getD_some]
    rw [List.range_succ_eq_map, List.map_cons, List.map_map]
    congr 1
    · simp
    · apply List.map_congr_left
      intro k _
      simp only [Function.comp]
      push_cast
      ring

/-- Same for next_comment_id. -/
theorem allocCommentIds_fst (n : Nat) : ∀ store : Option Meta,
    (allocCommentIds n store).1
      = (List.range n).map
          (fun (k : Nat) => (ProjectStorage.read_meta store).next_comment_id + (k : Int)) := by
  induction n with
  | zero => intro store; simp [allocCommentIds]
  | succ n ih =>
    intro store
    simp only [allocCommentIds, ProjectStorage.next_comment_id]
    rw [ih]
    simp only [ProjectStorage.read_meta, Option.getD_some]
    rw [List.range_succ_eq_map, List.map_cons, List.map_map]
    congr 1
    · simp
    · apply List.map_congr_left
      intro k _
      simp only [Function.comp]
      push_cast
      ring

/-- Claim C2: N sequential next_issue_id calls return the N consecutive
integers starting at the stored counter (strictly increasing, first value
equal to the initial counter), and each single call returns the current
value while persisting its successor; the same holds for next_comment_id. -/
theorem claim_C2 (store : Option Meta) (n : Nat) :
    (allocIssueIds n store).1
        = (List.range n).map
            (fun (k : Nat) => (ProjectStorage.read_meta store).next_issue_id + (k : Int))
    ∧ (allocIssueIds n store).1.Pairwise (· < ·)
    ∧ (0 < n → (allocIssueIds n store).1.head?
        = some (ProjectStorage.read_meta store).next_issue_id)
    ∧ ProjectStorage.next_issue_id store
        = ((ProjectStorage.read_meta store).next_issue_id,
            some { ProjectStorage.read_meta store with
                    next_issue_id := (ProjectStorage.read_meta store).next_issue_id + 1 })
    ∧ (allocCommentIds n store).1
        = (List.range n).map
            (fun (k : Nat) => (ProjectStorage.read_meta store).next_comment_id + (k : Int))
    ∧ (allocCommentIds n store).1.Pairwise (· < ·)
    ∧ (0 < n → (allocCommentIds n store).1.head?
        = some (ProjectStorage.read_meta store).next_comment_id)
    ∧ ProjectStorage.next_comment_id store
        = ((ProjectStorage.read_meta store).next_comment_id,
            some { ProjectStorage.read_meta store with
                    next_comment_id := (ProjectStorage.read_meta store).next_comment_id + 1 }) := by
  refine ⟨allocIssueIds_fst n store, ?_, ?_, rfl, allocCommentIds_fst n store, ?_, ?_, rfl⟩
  · rw [allocIssueIds_fst n store]
    exact (List.pairwise_lt_range n).map _ (fun a b hab => by omega)
  · intro hn
    obtain ⟨m, rfl⟩ := Nat.exists_eq_succ_of_ne_zero (Nat.pos_iff_ne_zero.mp hn)
    rw [allocIssueIds_fst (m + 1) store, List.range_succ_eq_map]
    simp
  · rw [allocCommentIds_fst n store]
    exact (List.pairwise_lt_range n).map _ (fun a b hab => by omega)
  · intro hn
    obtain ⟨m, rfl⟩ := Nat.exists_eq_succ_of_ne_zero (Nat.pos_iff_ne_zero.mp hn)
    rw [allocCommentIds_fst (m + 1) store, List.range_succ_eq_map]
    simp

/-- Closed instance of claim C2 at counters (5, 7) and N = 3. -/
theorem claim_C2_witness :
    (0 < 3 ∧ (allocIssueIds 3 metaFix).1.head? = some 5)
    ∧ (allocIssueIds 3 metaFix).1 = [5, 6, 7]
    ∧ (allocCommentIds 3 metaFix).1 = [7, 8, 9] :=
  ⟨⟨by decide, (claim_C2 metaFix 3).2.2.1 (by decide)⟩, by decide, by decide⟩

/-- Claim C4: commit stages everything and performs an underlying commit iff
the staged diff (working tree versus HEAD after staging) is non-empty, never
recording an empty commit; a second commit with no intervening changes is a
no-op, so two commits in a row perform exactly one underlying commit, or
zero when nothing was ever staged. -/
theorem claim_C4 (r : Repo) (m1 m2 : String) :
    ((ProjectStorage.commit m1 r).log
        = if r.worktree = r.head then r.log else m1 :: r.log)
    ∧ ((ProjectStorage.commit m1 r).log = r.log ↔ r.worktree = r.head)
    ∧ (ProjectStorage.commit m1 r).head = r.worktree
    ∧ (ProjectStorage.commit m1 r).worktree = r.worktree
    ∧ ProjectStorage.commit m2 (ProjectStorage.commit m1 r)
        = ProjectStorage.commit m1 r := by
  by_cases h : r.worktree = r.head
  · simp [ProjectStorage.commit, gitAddAll, gitDiffCachedQuiet, gitCommit, h]
  · simp [ProjectStorage.commit, gitAddAll, gitDiffCachedQuiet, gitCommit, h,
      List.cons_ne_self]

/-- The delivery pass sends the one serialised message to exactly the
listeners whose send does not fail, in registration order. -/
theorem broadcastLoop_fst (msg : WsMessage) :
    ∀ conns : List Listener,
      (WebSocketManager.broadcastLoop msg conns).1
        = (conns.filter (fun ws => !ws.fails)).map (fun ws => (ws, msg)) := by
  intro conns
  induction conns with
  | nil => rfl
  | cons ws rest ih =>
    simp only [WebSocketManager.broadcastLoop]
    cases hw : ws.fails <;> simp [List.filter_cons, hw, ih]

/-- The delivery pass collects exactly the failing listeners, in order. -/
theorem broadcastLoop_snd (msg : WsMessage) :
    ∀ conns : List Listener,
      (WebSocketManager.broadcastLoop msg conns).2
        = conns.filter (fun ws => ws.fails) := by
  intro conns
  induction conns with
  | nil => rfl
  | cons ws rest ih =>
    simp only [WebSocketManager.broadcastLoop]
    cases hw : ws.fails <;> simp [List.filter_cons, hw, ih]

/-- On a duplicate-free connection list, disconnecting one listener is
filtering it out. -/
theorem disconnect_eq_filter (l : List Listener) (hl : l.Nodup) (d : Listener) :
    WebSocketManager.disconnect l d = l.filter (fun x => x != d) := by
  unfold WebSocketManager.disconnect
  by_cases hc : l.contains d = true
  · rw [if_pos hc]
    exact List.Nodup.erase_eq_filter hl d
  · rw [if_neg hc]
    symm
    rw [List.filter_eq_self]
    intro x hx
    have hne : x ≠ d := by
      intro he
      exact hc (List.elem_iff.mpr (he ▸ hx))
    simpa using hne

/-- Folding disconnect over a batch of listeners filters all of them out of
a duplicate-free connection list. -/
theorem foldl_disconnect (ds : List Listener) :
    ∀ l : List Listener, l.Nodup →
      ds.foldl WebSocketManager.disconnect l
        = l.filter (fun x => !ds.contains x) := by
  induction ds with
  | nil => intro l _; simp
  | cons d ds ih =>
    intro l hl
    simp only [List.foldl_cons]
    rw [disconnect_eq_filter l hl d]
    rw [ih _ (List.Nodup.filter _ hl)]
    rw [List.filter_filter]
    apply List.filter_congr
    intro x _
    simp only [List.contains_cons, Bool.not_or]
    exact Bool.and_comm _ _

/-- Claim C5: broadcast serialises the message once and delivers it to every
listener registered at the start of the call in registration order; failing
listeners never prevent delivery to the others and are removed from the live
set only after the full pass. -/
theorem claim_C5 (conns : List Listener) (e : String) (d : List (String × JVal)) :
    (WebSocketManager.broadcast conns e d).2
        = (conns.filter (fun ws => !ws.fails)).map
            (fun ws => (ws, ({ event := e, data := d } : WsMessage)))
    ∧ (conns.Nodup →
        (WebSocketManager.broadcast conns e d).1
          = conns.filter (fun ws => !ws.fails)) := by
  constructor
  · simp [WebSocketManager.broadcast, broadcastLoop_fst]
  · intro hnd
    simp only [WebSocketManager.broadcast]
    rw [broadcastLoop_snd, foldl_disconnect _ _ hnd]
    apply List.filter_congr
    intro x hx
    cases hx2 : x.fails
    · have hmem : x ∉ conns.filter (fun ws => ws.fails) := by
        simp [List.mem_filter, hx2]
      have hcon : (conns.filter (fun ws => ws.fails)).contains x = false := by
        cases hcontra : (conns.filter (fun ws => ws.fails)).contains x
        · rfl
        · exact absurd (List.elem_iff.mp hcontra) hmem
      rw [hcon]
    · have hmem : x ∈ conns.filter (fun ws => ws.fails) :=
        List.mem_filter.mpr ⟨hx, hx2⟩
      have hcon : (conns.filter (fun ws => ws.fails)).contains x = true :=
        List.elem_iff.mpr hmem
      rw [hcon]

/-- Closed instance of claim C5: with three listeners of which the second
fails, the first and third still receive the message and the second is
removed afterward. -/
theorem claim_C5_witness :
    threeListeners.Nodup
    ∧ (WebSocketManager.broadcast threeListeners "ev" []).2
        = [(listenerOne, { event := "ev", data := [] }),
           (listenerThree, { event := "ev", data := [] })]
    ∧ (WebSocketManager.broadcast threeListeners "ev" []).1
        = [listenerOne, listenerThree] :=
  ⟨by decide,
   by rw [(claim_C5 threeListeners "ev" []).1]; rfl,
   by rw [(claim_C5 threeListeners "ev" []).2 (by decide)]; rfl⟩

/-- Python slicing with nonnegative bounds is drop-then-take. -/
theorem pySlice_nonneg {α : Type} (l : List α) (a b : Int)
    (ha : 0 ≤ a) (hab : a ≤ b) :
    pySlice l a b = (l.drop a.toNat).take (b - a).toNat := by
  simp only [pySlice]
  have hb : 0 ≤ b := le_trans ha hab
  rw [if_neg (not_lt.2 ha), if_neg (not_lt.2 hb)]
  by_cases hc : a ≤ (l.length : Int)
  · by_cases hd : b ≤ (l.length : Int)
    · rw [min_eq_left hd, min_eq_left hc, List.drop_take]
      congr 1
      omega
    · push_neg at hd
      rw [min_eq_right (le_of_lt hd), min_eq_left hc]
      rw [Int.toNat_natCast, List.take_length]
      symm
      apply List.take_of_length_le
      rw [List.length_drop]
      omega
  · push_neg at hc
    have hd : (l.length : Int) < b := lt_of_lt_of_le hc hab
    rw [min_eq_right (le_of_lt hc), min_eq_right (le_of_lt hd)]
    rw [Int.toNat_natCast, List.take_length, List.drop_length]
    symm
    rw [List.drop_eq_nil_of_le (by omega : l.length ≤ a.toNat)]
    simp

/-- Claim C7, amended: for a nonnegative per_page (the pydantic model only
bounds per_page above by 100, so negative values reach list_issues and make
the Python slice fall back to from-the-end indexing), list_issues clamps
per_page to at most 100 and page to at least 1, reports total_count as the
number of issues after filtering, and returns the slice of the
filtered-and-sorted list at offset (page-1)*per_page of length at most
per_page. -/
theorem claim_C7 (issues : List Issue) (f : IssueFilters)
    (hpp : 0 ≤ f.per_page) :
    (ProjectStorage.list_issues issues f).per_page = min f.per_page 100
    ∧ (ProjectStorage.list_issues issues f).page = max f.page 1
    ∧ (ProjectStorage.list_issues issues f).total_count
        = ((ProjectStorage.filterIssues f issues).length : Int)
    ∧ (ProjectStorage.list_issues issues f).items
        = ((ProjectStorage.sortIssues f (ProjectStorage.filterIssues f issues)).drop
            ((max f.page 1 - 1) * min f.per_page 100).toNat).take
            (min f.per_page 100).toNat
    ∧ ((ProjectStorage.list_issues issues f).items.length : Int)
        ≤ min f.per_page 100 := by
  have hpp2 : 0 ≤ min f.per_page 100 := le_min hpp (by norm_num)
  have hoff : 0 ≤ (max f.page 1 - 1) * min f.per_page 100 :=
    mul_nonneg (by have := le_max_right f.page 1; omega) hpp2
  have hitems : (ProjectStorage.list_issues issues f).items
      = ((ProjectStorage.sortIssues f (ProjectStorage.filterIssues f issues)).drop
          ((max f.page 1 - 1) * min f.per_page 100).toNat).take
          (min f.per_page 100).toNat := by
    show pySlice _ _ _ = _
    rw [pySlice_nonneg _ _ _ hoff (by omega)]
    congr 1
    omega
  refine ⟨rfl, rfl, rfl, hitems, ?_⟩
  rw [hitems]
  rw [List.length_take]
  omega

/-- Claim C7 as frozen is false at a negative per_page: with two issues and
per_page = -1 (admitted by the pydantic bound le=100), the Python slice
issues[0:-1] returns one item, which is not of length at most per_page. -/
theorem claim_C7_counterexample :
    (ProjectStorage.list_issues issuesPairCE filtersNegPerPage).per_page = -1
    ∧ (ProjectStorage.list_issues issuesPairCE filtersNegPerPage).items.length = 1
    ∧ ¬(((ProjectStorage.list_issues issuesPairCE filtersNegPerPage).items.length : Int)
        ≤ (ProjectStorage.list_issues issuesPairCE filtersNegPerPage).per_page) := by
  refine ⟨rfl, rfl, ?_⟩
  decide

/-- Closed instance of claim C7: 25 issues at 10 per page give 5 items on
page 3, and 0 items with total_count 25 on page 4. -/
theorem claim_C7_witness :
    (0 ≤ filtersPage3.per_page
      ∧ (ProjectStorage.list_issues issues25 filtersPage3).per_page = 10)
    ∧ (ProjectStorage.list_issues issues25 filtersPage3).items.length = 5
    ∧ (ProjectStorage.list_issues issues25 filtersPage4).items.length = 0
    ∧ (ProjectStorage.list_issues issues25 filtersPage4).total_count = 25 :=
  ⟨⟨by decide, (claim_C7 issues25 filtersPage3 (by decide)).1⟩,
   by decide, by decide, by decide⟩

/-- Claim C8: with a non-empty comma-separated labels filter, list_issues
keeps exactly the issues whose label-name set contains every requested
whitespace-trimmed name (AND semantics); in particular, of the issues tagged
with A, with A and B, and with B, filtering by "A,B" returns exactly the one
tagged with both. -/
theorem claim_C8 (issues : List Issue) (s : String) (hs : s ≠ "") :
    (∀ f : IssueFilters, f.labels = some s →
        ∀ i, i ∈ ProjectStorage.filterLabels f issues ↔
          (i ∈ issues ∧ ∀ r ∈ ProjectStorage.requiredLabelNames s,
            r ∈ i.labels.map Label.name))
    ∧ (ProjectStorage.list_issues issuesLabelled filtersLabelsAB).items
        = [issueBothAB]
    ∧ (ProjectStorage.list_issues issuesLabelled filtersLabelsAB).total_count = 1 := by
  refine ⟨?_, by decide, by decide⟩
  intro f hf i
  simp only [ProjectStorage.filterLabels, hf]
  rw [if_neg hs]
  simp only [List.mem_filter, List.all_eq_true]
  constructor
  · rintro ⟨h1, h2⟩
    exact ⟨h1, fun r hr => List.elem_iff.mp (h2 r hr)⟩
  · rintro ⟨h1, h2⟩
    exact ⟨h1, fun r hr => List.elem_iff.mpr (h2 r hr)⟩

/-- Closed instance of claim C8 at the filter string "A,B". -/
theorem claim_C8_witness :
    ("A,B" : String) ≠ ""
    ∧ (ProjectStorage.list_issues issuesLabelled filtersLabelsAB).items
        = [issueBothAB] :=
  ⟨by decide, (claim_C8 issuesLabelled "A,B" (by decide)).2.1⟩

/-- Claim C10 (implicit): a sort key outside created / updated / comments
makes list_issues behave exactly as with the default key created: the whole
response (items, ordering, counts, clamps) coincides, and nothing raises. -/
theorem claim_C10 (issues : List Issue) (f : IssueFilters)
    (h1 : f.sort ≠ "created") (h2 : f.sort ≠ "updated")
    (h3 : f.sort ≠ "comments") :
    ProjectStorage.list_issues issues f
      = ProjectStorage.list_issues issues { f with sort := "created" } := by
  simp only [ProjectStorage.list_issues, ProjectStorage.sortIssues,
    ProjectStorage.filterIssues, ProjectStorage.filterState,
    ProjectStorage.filterLabels, ProjectStorage.filterAssignee]
  simp [h1, h2, h3]

/-- Closed instance of claim C10 at the unknown sort key "oldest". -/
theorem claim_C10_witness :
    (filtersSortBogus.sort ≠ "created" ∧ filtersSortBogus.sort ≠ "updated"
      ∧ filtersSortBogus.sort ≠ "comments")
    ∧ ProjectStorage.list_issues issues25 filtersSortBogus
        = ProjectStorage.list_issues issues25
            { filtersSortBogus with sort := "created" } :=
  ⟨⟨by decide, by decide, by decide⟩,
   claim_C10 issues25 filtersSortBogus (by decide) (by decide) (by decide)⟩
